import Mathlib

/-!
Verification development for the gossip-broadcast node of `elephantum/dist-sys`.

Two implementations of the broadcast protocol are embedded:
* `src/03_broadcast/app.py` — the hand-rolled select loop (`Node`, `heartbeat`,
  `handle`, `handle_request`), embedded in namespace `DistSys.AppPy`;
* `src/mstrm/__init__.py` together with `src/03_broadcast/app2.py` — the asyncio
  runtime (`Mstrm.call` / `Mstrm.reply` / `Mstrm.spin_forever`) wired to the app2
  node handlers, embedded in namespace `DistSys.App2`.

Python sets of ints are modelled as `Finset ℤ`, dicts keyed by message id as
association lists, the dict `pending_broadcasts : Dict[str, Set[int]]` as a total
function `String → Finset ℤ` (its key set is exactly `node_ids`, fixed at
`__init__` and never changed, and every access in the code is at a key in that
set).  An uncaught Python exception is modelled as `Except.error`.
-/

namespace DistSys

/-- Materialization `list(s)` of a Python set of ints: the elements of the
`Finset` listed in ascending order (Python's iteration order is arbitrary;
this fixes one).  Implemented with the structurally recursive insertion sort
so that it evaluates inside the kernel. -/
def setList (s : Finset ℤ) : List ℤ :=
  Quot.liftOn s.val (fun l => l.insertionSort (· ≤ ·)) fun _ _ h =>
    List.eq_of_perm_of_sorted
      ((List.perm_insertionSort _ _).trans (h.trans (List.perm_insertionSort _ _).symm))
      (List.sorted_insertionSort _ _) (List.sorted_insertionSort _ _)

theorem mem_setList (a : ℤ) (s : Finset ℤ) : a ∈ setList s ↔ a ∈ s := by
  rcases s with ⟨m, hm⟩
  induction m using Quot.inductionOn with
  | h l =>
    change a ∈ l.insertionSort (· ≤ ·) ↔ _
    rw [(List.perm_insertionSort _ _).mem_iff]
    rfl

theorem setList_toFinset (s : Finset ℤ) : (setList s).toFinset = s := by
  ext a
  rw [List.mem_toFinset, mem_setList]

namespace AppPy

/-- The discriminated union of message bodies of `app.py` (the pydantic models
`Init`, `InitOk`, `Broadcast`, `BroadcastOk`, `BatchBroadcast`,
`BatchBroadcastOk`, `Read`, `ReadOk`, `Topology`, `TopologyOk`). -/
inductive Body where
  | init (msg_id : ℕ) (node_id : String) (node_ids : List String)
  | initOk (in_reply_to : ℕ)
  | broadcast (msg_id : ℕ) (message : ℤ)
  | broadcastOk (in_reply_to : ℕ)
  | batchBroadcast (msg_id : ℕ) (messages : List ℤ)
  | batchBroadcastOk (in_reply_to : ℕ)
  | read (msg_id : ℕ)
  | readOk (in_reply_to : ℕ) (messages : List ℤ)
  | topology (msg_id : ℕ) (topology : List (String × List String))
  | topologyOk (in_reply_to : ℕ)
  deriving DecidableEq

/-- The envelope `Message(src, dest, body)` of `app.py`. -/
structure Message where
  src : String
  dest : String
  body : Body
  deriving DecidableEq

/-- Bodies that subclass `InReplyTo` in `app.py` (the reply bodies). -/
def Body.isReply : Body → Bool
  | .initOk _ | .broadcastOk _ | .batchBroadcastOk _ | .readOk _ _ | .topologyOk _ => true
  | _ => false

/-- The `in_reply_to` field of a body; `none` where the attribute is absent
(accessing it on a request body would raise `AttributeError`). -/
def Body.inReplyTo : Body → Option ℕ
  | .initOk r | .broadcastOk r | .batchBroadcastOk r | .readOk r _ | .topologyOk r => some r
  | _ => none

/-- The `msg_id` field of a body; `none` where the attribute is absent. -/
def Body.msgId : Body → Option ℕ
  | .init m _ _ | .broadcast m _ | .batchBroadcast m _ | .read m | .topology m _ => some m
  | _ => none

/-- The `messages` field of a body; `none` where the attribute is absent. -/
def Body.messagesField : Body → Option (List ℤ)
  | .batchBroadcast _ ms | .readOk _ ms => some ms
  | _ => none

/-- The only callback `app.py` ever registers: the lambda in `Node.heartbeat`,
`lambda msg: self.pending_broadcasts[msg.dest].difference_update(msg.body.messages)`. -/
inductive Handler where
  | clearSentOnAck
  deriving DecidableEq

/-- The dataclass `PendingReply(msg, handler, sent_at)` of `app.py`. -/
structure PendingReply where
  msg : Message
  handler : Handler
  sent_at : ℕ
  deriving DecidableEq

/-- The mutable state of `Node` in `app.py`:
`node_id`, `node_ids` (the peer set, `set(node_ids) - {node_id}`),
`known_messages`, `pending_replies` (dict msg-id → `PendingReply`, kept as an
association list in insertion order), the message-id generator
(`(i for i in range(1, sys.maxsize))`, kept as the next value to be yielded),
and `pending_broadcasts` (dict peer → set of ints, kept as a total function
whose key set is `node_ids`). -/
structure NodeState where
  node_id : String
  node_ids : List String
  known_messages : Finset ℤ
  pending_replies : List (ℕ × PendingReply)
  next_msg_id : ℕ
  pending_broadcasts : String → Finset ℤ

/-- `Node.__init__(node_id, node_ids)`: peers are `set(node_ids) - {node_id}`,
all sets start empty, the id generator starts at 1. -/
def Node.mkInit (node_id : String) (node_ids : List String) : NodeState :=
  { node_id := node_id
    node_ids := (node_ids.filter (fun n => n ≠ node_id)).dedup
    known_messages := ∅
    pending_replies := []
    next_msg_id := 1
    pending_broadcasts := fun _ => ∅ }

/-- `for node in ks: pending_broadcasts[node].add(v)` — the fan-out loop of the
`Broadcast` case of `handle_request` (every key of the dict is in `node_ids`). -/
def pbAddAll (pb : String → Finset ℤ) (ks : List String) (v : ℤ) : String → Finset ℤ :=
  fun p => if p ∈ ks then insert v (pb p) else pb p

/-- Python dict lookup `pending_replies[i]` (as an option; every use in the code
is guarded by an `in` test). -/
def prLookup (prs : List (ℕ × PendingReply)) (i : ℕ) : Option PendingReply :=
  (prs.find? (fun e => e.1 = i)).map Prod.snd

/-- Python dict assignment `pending_replies[i] = pr`: overwrite an existing key,
otherwise append in insertion order. -/
def prInsert (prs : List (ℕ × PendingReply)) (i : ℕ) (pr : PendingReply) :
    List (ℕ × PendingReply) :=
  if (prs.find? (fun e => e.1 = i)).isSome then
    prs.map (fun e => if e.1 = i then (i, pr) else e)
  else
    prs ++ [(i, pr)]

/-- Python `del pending_replies[i]`. -/
def prErase (prs : List (ℕ × PendingReply)) (i : ℕ) : List (ℕ × PendingReply) :=
  prs.filter (fun e => e.1 ≠ i)

/-- Semantics of the stored callback.  `Handler.clearSentOnAck` is the heartbeat
lambda `lambda msg: self.pending_broadcasts[msg.dest].difference_update(msg.body.messages)`:
it reads `msg.dest` of the *reply* it is invoked with (which is this node's own
id, not a key of `pending_broadcasts`) and `msg.body.messages` (absent on
`BatchBroadcastOk`); `none` models the `KeyError`/`AttributeError` it would
raise.  `difference_update` is set difference at one key. -/
def runHandler : Handler → NodeState → Message → Option NodeState
  | .clearSentOnAck, s, reply =>
    match reply.body.messagesField with
    | none => none
    | some ms =>
      if reply.dest ∈ s.node_ids then
        some { s with pending_broadcasts :=
          fun p => if p = reply.dest then s.pending_broadcasts p \ ms.toFinset
                   else s.pending_broadcasts p }
      else none

/-- `Node.handle_request` (`app.py` lines 174-219): dispatch on the body type.
`Topology` → reply `TopologyOk`; `Broadcast` → add to `known_messages`, add to
every peer's `pending_broadcasts`, reply `BroadcastOk`; `Read` → reply `ReadOk`
with `list(self.known_messages)` (materialized here in sorted order);
`BatchBroadcast` → union into `known_messages`, reply `BatchBroadcastOk`.
No case matches any other body, so Python's `match` falls through and nothing
happens.  The returned list holds the envelopes written to stdout. -/
def handle_request (s : NodeState) (msg : Message) : NodeState × List Message :=
  match msg.body with
  | .topology mid _ =>
    (s, [⟨msg.dest, msg.src, .topologyOk mid⟩])
  | .broadcast mid v =>
    ({ s with
        known_messages := insert v s.known_messages
        pending_broadcasts := pbAddAll s.pending_broadcasts s.node_ids v },
     [⟨msg.dest, msg.src, .broadcastOk mid⟩])
  | .read mid =>
    (s, [⟨msg.dest, msg.src, .readOk mid (setList s.known_messages)⟩])
  | .batchBroadcast mid vs =>
    ({ s with known_messages := s.known_messages ∪ vs.toFinset },
     [⟨msg.dest, msg.src, .batchBroadcastOk mid⟩])
  | _ => (s, [])

/-- `Node.handle` opens with `match msg: case InReplyTo():` — a class pattern on
the *envelope*.  That pattern is `isinstance(msg, InReplyTo)`, and the envelope
class `Message` does not subclass `InReplyTo` (only the reply *body* classes
do), so the test is `False` for every envelope. -/
def envelopeIsInReplyTo (_ : Message) : Bool := false

/-- The body of the `case InReplyTo():` arm of `Node.handle` (lines 163-169):
if `msg.body.in_reply_to` is a key of `pending_replies`, invoke the stored
handler with the reply and delete the entry; otherwise log and drop.
An `Except.error` models an uncaught exception. -/
def handleReplyCase (s : NodeState) (msg : Message) :
    Except String (NodeState × List Message) :=
  match msg.body.inReplyTo with
  | none => .error "AttributeError: in_reply_to"
  | some rid =>
    match prLookup s.pending_replies rid with
    | some pr =>
      match runHandler pr.handler s msg with
      | some s' => .ok ({ s' with pending_replies := prErase s'.pending_replies rid }, [])
      | none => .error "handler raised"
    | none => .ok (s, [])

/-- `Node.handle` (`app.py` lines 160-172). -/
def handle (s : NodeState) (msg : Message) : Except String (NodeState × List Message) :=
  if envelopeIsInReplyTo msg then
    handleReplyCase s msg
  else
    .ok (handle_request s msg)

/-- One iteration of the loop in `Node.heartbeat`: for a peer whose pending set
is non-empty, draw the next msg id, send a `BatchBroadcast` carrying
`list(messages)` (materialized in sorted order) and register the clearing
lambda in `pending_replies` under that id with `sent_at := now`. -/
def hbStep (now : ℕ) (acc : NodeState × List Message) (node : String) :
    NodeState × List Message :=
  let s := acc.1
  if s.pending_broadcasts node = ∅ then acc
  else
    let mid := s.next_msg_id
    let m : Message :=
      ⟨s.node_id, node, .batchBroadcast mid (setList (s.pending_broadcasts node))⟩
    ({ s with
        next_msg_id := mid + 1
        pending_replies := prInsert s.pending_replies mid ⟨m, .clearSentOnAck, now⟩ },
     acc.2 ++ [m])

/-- `Node.heartbeat` (`app.py` lines 123-141): iterate
`self.pending_broadcasts.items()` — whose key set is exactly `node_ids` — and
flush each non-empty pending set as a tracked `BatchBroadcast`. -/
def heartbeat (s : NodeState) (now : ℕ) : NodeState × List Message :=
  s.node_ids.foldl (hbStep now) (s, [])

/-- One event of the `main` loop of `app.py`: either an inbound envelope or a
heartbeat tick. -/
inductive Event where
  | msg (m : Message)
  | tick (now : ℕ)
  deriving DecidableEq

/-- One iteration of the `while True` loop in `main` (`app.py` lines 266-272). -/
def step (s : NodeState) : Event → Except String (NodeState × List Message)
  | .msg m => handle s m
  | .tick now => .ok (heartbeat s now)

/-- The `main` loop of `app.py` run over a finite prefix of events. -/
def runEvents (s : NodeState) : List Event → Except String NodeState
  | [] => .ok s
  | e :: rest =>
    match step s e with
    | .ok r => runEvents r.1 rest
    | .error err => .error err

end AppPy

namespace App2

/-- A message body of `src/mstrm/__init__.py` / `src/03_broadcast/app2.py`: a
JSON dict.  Each field is `some` when the key is present; reading an absent key
raises `KeyError`, modelled as `Except.error` at the access site. -/
structure Body where
  type : Option String := none
  msg_id : Option ℕ := none
  in_reply_to : Option ℕ := none
  message : Option ℤ := none
  messages : Option (List ℤ) := none
  deriving DecidableEq

/-- The envelope `Message(src, dest, body)` of `mstrm`. -/
structure Message where
  src : String
  dest : String
  body : Body
  deriving DecidableEq

/-- Observable effects of a step: an envelope written to the transport
(`Mstrm.send`), or `future.set_result(message.body)` on the future registered
under the given call id. -/
inductive Eff where
  | send (env : Message)
  | resolve (id : ℕ) (body : Body)
  deriving DecidableEq

/-- Combined state of the `Mstrm` runtime and the `app2.py` `Node`:
`next_msg_id` is the id generator (`(i for i in range(1, sys.maxsize))`),
`call_futures` the ids of unresolved futures registered by `Mstrm.call`
(dict in insertion order), `known_messages` and `pending_broadcasts` the
`Node` fields (the dict's key set is exactly `node_ids`). -/
structure Sys where
  node_id : String
  node_ids : List String
  next_msg_id : ℕ
  call_futures : List ℕ
  known_messages : Finset ℤ
  pending_broadcasts : String → Finset ℤ

/-- State after `Mstrm.create()` and `Node.__init__(m.node_ids)`:
`node_ids` excludes the node's own id, all sets empty, generator at 1
(`create` itself consumes no ids: `init_ok`/`topology_ok` replies each consume
one; we start the trace after those, at an arbitrary generator value `g0`). -/
def mkInit (node_id : String) (node_ids : List String) (g0 : ℕ) : Sys :=
  { node_id := node_id
    node_ids := node_ids.filter (fun n => n ≠ node_id)
    next_msg_id := g0
    call_futures := []
    known_messages := ∅
    pending_broadcasts := fun _ => ∅ }

/-- The callback table registered by `app2.py`'s `main`:
`m.on("broadcast", ...)`, `m.on("batch_broadcast", ...)`, `m.on("read", ...)`. -/
def registeredCallbacks : List String := ["broadcast", "batch_broadcast", "read"]

/-- `Mstrm.reply(original_message, message)`: set `message["msg_id"]` from the
generator and `message["in_reply_to"] = original_message.body["msg_id"]`
(a `KeyError` if the original has no `msg_id`), then send to the original's
`src`. -/
def mreply (s : Sys) (orig : Message) (body : Body) : Except String (Sys × Eff) :=
  match orig.body.msg_id with
  | none => .error "KeyError: msg_id"
  | some omid =>
    let b := { body with msg_id := some s.next_msg_id, in_reply_to := some omid }
    .ok ({ s with next_msg_id := s.next_msg_id + 1 },
         .send ⟨s.node_id, orig.src, b⟩)

/-- `Mstrm.call(dest, message)`: set `message["msg_id"]` from the generator,
send, then register a fresh future under that id.  The `Future` is *returned*
to the caller; `call` itself never awaits it. -/
def mcall (s : Sys) (dest : String) (body : Body) : Sys × Eff :=
  let mid := s.next_msg_id
  let b := { body with msg_id := some mid }
  ({ s with
      next_msg_id := mid + 1
      call_futures := s.call_futures ++ [mid] },
   .send ⟨s.node_id, dest, b⟩)

/-- `Node.on_broadcast` (`app2.py` lines 45-53): `msg.body["message"]`
(`KeyError` if absent) is added to `known_messages` and to every peer's
pending set, then `broadcast_ok` is sent in reply. -/
def on_broadcast (s : Sys) (msg : Message) : Except String (Sys × List Eff) :=
  match msg.body.message with
  | none => .error "KeyError: message"
  | some v =>
    match mreply
        { s with
            known_messages := insert v s.known_messages
            pending_broadcasts := AppPy.pbAddAll s.pending_broadcasts s.node_ids v }
        msg { type := some "broadcast_ok" } with
    | .ok (s', e) => .ok (s', [e])
    | .error err => .error err

/-- `Node.on_batch_broadcast` (`app2.py` lines 55-59): union
`msg.body["messages"]` into `known_messages`, reply `batch_broadcast_ok`. -/
def on_batch_broadcast (s : Sys) (msg : Message) : Except String (Sys × List Eff) :=
  match msg.body.messages with
  | none => .error "KeyError: messages"
  | some vs =>
    match mreply { s with known_messages := s.known_messages ∪ vs.toFinset }
        msg { type := some "batch_broadcast_ok" } with
    | .ok (s', e) => .ok (s', [e])
    | .error err => .error err

/-- `Node.on_read` (`app2.py` lines 61-62): reply `read_ok` with
`list(self.known_messages)` (materialized here in sorted order). -/
def on_read (s : Sys) (msg : Message) : Except String (Sys × List Eff) :=
  match mreply s msg
      { type := some "read_ok", messages := some (setList s.known_messages) } with
  | .ok (s', e) => .ok (s', [e])
  | .error err => .error err

/-- Dispatch to the callback registered for an event type (the wiring of
`app2.py`'s `main`). -/
def runCallback (t : String) (s : Sys) (msg : Message) : Except String (Sys × List Eff) :=
  if t = "broadcast" then on_broadcast s msg
  else if t = "batch_broadcast" then on_batch_broadcast s msg
  else if t = "read" then on_read s msg
  else .ok (s, [])

/-- The reply-correlation block opening each `spin_forever` iteration
(`mstrm/__init__.py` lines 111-117): *if* the body has an `in_reply_to` key
whose value is a registered call id, the future is resolved with the body and
the entry deleted; otherwise nothing happens. -/
def replyBlock (s : Sys) (msg : Message) : Sys × List Eff :=
  match msg.body.in_reply_to with
  | some rid =>
    if rid ∈ s.call_futures then
      ({ s with call_futures := s.call_futures.erase rid },
       [Eff.resolve rid msg.body])
    else (s, [])
  | none => (s, [])

/-- One iteration of `Mstrm.spin_forever` (`mstrm/__init__.py` lines 109-120)
on an inbound envelope.  First the reply-correlation block runs.  Then —
unconditionally, not in an `else` — `body["type"]` is read (`KeyError` if the
key is absent) and, if a callback is registered for it, the callback is
awaited.  There is no `try`/`except`: an exception from either part propagates
out of the loop. -/
def spinStep (s : Sys) (msg : Message) : Except String (Sys × List Eff) :=
  let s1 := (replyBlock s msg).1
  let effs1 := (replyBlock s msg).2
  match msg.body.type with
  | none => .error "KeyError: type"
  | some t =>
    if t ∈ registeredCallbacks then
      match runCallback t s1 msg with
      | .ok (s2, effs2) => .ok (s2, effs1 ++ effs2)
      | .error err => .error err
    else .ok (s1, effs1)

/-- `spin_forever` run over a finite prefix of inbound envelopes: an uncaught
exception terminates the loop, leaving the remaining envelopes unprocessed. -/
def spinLoop (s : Sys) : List Message → Except String Sys
  | [] => .ok s
  | m :: rest =>
    match spinStep s m with
    | .ok r => spinLoop r.1 rest
    | .error err => .error err

/-- `_batch_broadcast_one(node, messages)` inside
`Node.batch_broadcast_to_all` (`app2.py` lines 23-26).  `messages` is the
snapshot `list(self.pending_broadcasts[node])` taken when the task was created.
`await m.call(...)` awaits the *coroutine* `call` — which sends the request and
registers the future — and evaluates to the returned `Future`; that future is
itself never awaited.  Hence the `difference_update` of the snapshot runs as
soon as the send completes, with no acknowledgment involved. -/
def batch_broadcast_one (s : Sys) (node : String) (messages : List ℤ) :
    Sys × List Eff :=
  if messages = [] then (s, [])
  else
    let (s1, e) := mcall s node { type := some "batch_broadcast", messages := some messages }
    ({ s1 with pending_broadcasts :=
        fun p => if p = node then s1.pending_broadcasts p \ messages.toFinset
                 else s1.pending_broadcasts p },
     [e])

/-- `Node.batch_broadcast_to_all` (`app2.py` lines 22-35): one task per peer,
each created with an eagerly evaluated snapshot `list(self.pending_broadcasts[node])`
— all snapshots are taken before any task runs.  The tasks run on the single
event-loop thread and touch disjoint `pending_broadcasts` keys, so running them
in `node_ids` order is one faithful linearization. -/
def flushAcc (acc : Sys × List Eff) (e : String × List ℤ) : Sys × List Eff :=
  let r := batch_broadcast_one acc.1 e.1 e.2
  (r.1, acc.2 ++ r.2)

def batch_broadcast_to_all (s : Sys) : Sys × List Eff :=
  let snaps := s.node_ids.map (fun n => (n, setList (s.pending_broadcasts n)))
  snaps.foldl flushAcc (s, [])

end App2

/-! ## Submit/Merge abstraction for the value-set algebra (claim C1) -/

/-- A `Submit` (`broadcast`) or `Merge` (`batch_broadcast`) operation, carrying
the values of the corresponding request body. -/
inductive BCOp where
  | submit (v : ℤ)
  | merge (vs : List ℤ)
  deriving DecidableEq

/-- The `app.py` request message carrying a `BCOp` (the `msg_id` is irrelevant
to the state update performed by `handle_request`). -/
def BCOp.toMessage (src dst : String) (mid : ℕ) : BCOp → AppPy.Message
  | .submit v => ⟨src, dst, .broadcast mid v⟩
  | .merge vs => ⟨src, dst, .batchBroadcast mid vs⟩

/-- The set of distinct values carried by one operation. -/
def BCOp.values : BCOp → Finset ℤ
  | .submit v => {v}
  | .merge vs => vs.toFinset

/-- The set of distinct values carried by a sequence of operations. -/
def bcValues : List BCOp → Finset ℤ
  | [] => ∅
  | op :: ops => op.values ∪ bcValues ops

/-- Run a sequence of submit/merge requests through `app.py`'s
`handle_request`. -/
def runBC (s : AppPy.NodeState) (src dst : String) : List BCOp → AppPy.NodeState
  | [] => s
  | op :: ops => runBC (AppPy.handle_request s (op.toMessage src dst 0)).1 src dst ops

theorem handle_request_known_bcOp (s : AppPy.NodeState) (src dst : String) (mid : ℕ)
    (op : BCOp) :
    (AppPy.handle_request s (op.toMessage src dst mid)).1.known_messages =
      s.known_messages ∪ op.values := by
  cases op with
  | submit v =>
    simp only [BCOp.toMessage, AppPy.handle_request, BCOp.values]
    ext x
    simp [or_comm]
  | merge vs =>
    simp only [BCOp.toMessage, AppPy.handle_request, BCOp.values]

theorem runBC_known (src dst : String) (ops : List BCOp) :
    ∀ s : AppPy.NodeState,
      (runBC s src dst ops).known_messages = s.known_messages ∪ bcValues ops := by
  induction ops with
  | nil => intro s; simp [runBC, bcValues]
  | cons op ops ih =>
    intro s
    rw [runBC, ih, handle_request_known_bcOp, bcValues, Finset.union_assoc]

theorem mem_bcValues (x : ℤ) (ops : List BCOp) :
    x ∈ bcValues ops ↔ ∃ op ∈ ops, x ∈ op.values := by
  induction ops with
  | nil => simp [bcValues]
  | cons op ops ih => simp [bcValues, ih]

theorem bcValues_perm {ops ops' : List BCOp} (h : ops.Perm ops') :
    bcValues ops = bcValues ops' := by
  ext x
  rw [mem_bcValues, mem_bcValues]
  constructor <;> rintro ⟨op, hop, hx⟩
  · exact ⟨op, h.mem_iff.mp hop, hx⟩
  · exact ⟨op, h.mem_iff.mpr hop, hx⟩

/-- C1: for every finite sequence of Submit (`broadcast`) and Merge
(`batch_broadcast`) operations applied through `handle_request` to a freshly
created node, the final `known_messages` set equals exactly the set of
distinct values carried by the operations, and any permutation of the sequence
(hence any reordering, with duplicates absorbed by set insertion/union) yields
the same final set. -/
theorem submit_merge_result_set (nid src dst : String) (nids : List String)
    (ops ops' : List BCOp) (h : ops.Perm ops') :
    (runBC (AppPy.Node.mkInit nid nids) src dst ops).known_messages = bcValues ops ∧
    (runBC (AppPy.Node.mkInit nid nids) src dst ops').known_messages =
      (runBC (AppPy.Node.mkInit nid nids) src dst ops).known_messages := by
  constructor
  · rw [runBC_known]
    simp [AppPy.Node.mkInit]
  · rw [runBC_known, runBC_known, bcValues_perm h]

theorem submit_merge_result_set_witness :
    (runBC (AppPy.Node.mkInit "n1" ["n1", "n2"]) "c" "n1"
        [.submit 1, .merge [2, 1]]).known_messages = bcValues [.submit 1, .merge [2, 1]] ∧
    (runBC (AppPy.Node.mkInit "n1" ["n1", "n2"]) "c" "n1"
        [.merge [2, 1], .submit 1]).known_messages =
      (runBC (AppPy.Node.mkInit "n1" ["n1", "n2"]) "c" "n1"
        [.submit 1, .merge [2, 1]]).known_messages :=
  submit_merge_result_set "n1" "c" "n1" ["n1", "n2"]
    [.submit 1, .merge [2, 1]] [.merge [2, 1], .submit 1]
    (List.Perm.swap (BCOp.merge [2, 1]) (BCOp.submit 1) [])

/-! ## Submit, Read, and reply dispatch in app.py (claims C7, C9, C4) -/

/-- C7: `Submit(value)` (a `broadcast` request handled by `handle_request`)
inserts the value into `known_messages` (idempotently, as a set insertion),
inserts it into the pending set of every peer other than (at least) the sender,
and emits exactly the immediate `broadcast_ok` acknowledgment — no propagation
message is sent in this step. -/
theorem submit_ack_and_fanout (s : AppPy.NodeState) (src dst : String) (mid : ℕ) (v : ℤ) :
    (AppPy.handle_request s ⟨src, dst, .broadcast mid v⟩).1.known_messages =
      insert v s.known_messages ∧
    (∀ p ∈ s.node_ids, p ≠ src →
      v ∈ (AppPy.handle_request s ⟨src, dst, .broadcast mid v⟩).1.pending_broadcasts p) ∧
    (AppPy.handle_request s ⟨src, dst, .broadcast mid v⟩).2 =
      [⟨dst, src, .broadcastOk mid⟩] := by
  refine ⟨rfl, ?_, rfl⟩
  intro p hp _
  simp [AppPy.handle_request, AppPy.pbAddAll, hp]

theorem submit_ack_and_fanout_witness :
    (AppPy.handle_request (AppPy.Node.mkInit "n1" ["n1", "n2"])
        ⟨"c", "n1", .broadcast 5 42⟩).1.known_messages =
      insert 42 (AppPy.Node.mkInit "n1" ["n1", "n2"]).known_messages ∧
    (∀ p ∈ (AppPy.Node.mkInit "n1" ["n1", "n2"]).node_ids, p ≠ "c" →
      (42 : ℤ) ∈ (AppPy.handle_request (AppPy.Node.mkInit "n1" ["n1", "n2"])
        ⟨"c", "n1", .broadcast 5 42⟩).1.pending_broadcasts p) ∧
    (AppPy.handle_request (AppPy.Node.mkInit "n1" ["n1", "n2"])
        ⟨"c", "n1", .broadcast 5 42⟩).2 = [⟨"n1", "c", .broadcastOk 5⟩] :=
  submit_ack_and_fanout (AppPy.Node.mkInit "n1" ["n1", "n2"]) "c" "n1" 5 42

/-- C9: `Read()` replies with a materialized sequence containing exactly the
current members of `known_messages` and changes nothing.  In `app.py` the whole
node state is returned untouched; in `app2.py`/`mstrm` the reply consumes one
message id from the generator but `known_messages`, every pending set and the
outstanding-future table are unchanged. -/
theorem read_is_pure_snapshot :
    (∀ (s : AppPy.NodeState) (src dst : String) (mid : ℕ),
      AppPy.handle s ⟨src, dst, .read mid⟩ =
        .ok (s, [⟨dst, src, .readOk mid (setList s.known_messages)⟩]) ∧
      (setList s.known_messages).toFinset = s.known_messages) ∧
    (∀ (t : App2.Sys) (src dst : String) (mid : ℕ),
      App2.spinStep t ⟨src, dst, { type := some "read", msg_id := some mid }⟩ =
        .ok ({ t with next_msg_id := t.next_msg_id + 1 },
          [.send ⟨t.node_id, src,
            { type := some "read_ok", msg_id := some t.next_msg_id,
              in_reply_to := some mid,
              messages := some (setList t.known_messages) }⟩]) ∧
      (setList t.known_messages).toFinset = t.known_messages) := by
  constructor
  · intro s src dst mid
    exact ⟨rfl, setList_toFinset _⟩
  · intro t src dst mid
    refine ⟨?_, setList_toFinset _⟩
    simp [App2.spinStep, App2.replyBlock, App2.registeredCallbacks, App2.runCallback,
      App2.on_read, App2.mreply]

/-- Helper: every reply envelope is a no-op for `app.py`'s `handle`. -/
theorem handle_reply_noop (s : AppPy.NodeState) (src dst : String)
    (b : AppPy.Body) (hb : b.isReply = true) :
    AppPy.handle s ⟨src, dst, b⟩ = .ok (s, []) := by
  cases b <;> simp_all [AppPy.handle, AppPy.envelopeIsInReplyTo, AppPy.handle_request,
    AppPy.Body.isReply]

/-- C4 (evaluation of the code at the failing input): `Node.handle` in `app.py`
pattern-matches the *envelope* against `InReplyTo()`, which never matches, so
every reply envelope falls through to `handle_request`, whose `match` has no
case for reply bodies — the state (including `pending_replies`) is returned
unchanged, no stored handler is invoked, no entry is removed, and no diagnostic
path is reached. -/
theorem reply_dispatch_unreachable (s : AppPy.NodeState) (src dst : String)
    (b : AppPy.Body) (hb : b.isReply = true) :
    AppPy.handle s ⟨src, dst, b⟩ = .ok (s, []) :=
  handle_reply_noop s src dst b hb

/-- A concrete outstanding entry: the tracked `BatchBroadcast` with id 1. -/
def pendingReplyExample : AppPy.PendingReply :=
  ⟨⟨"n1", "n2", .batchBroadcast 1 [7]⟩, .clearSentOnAck, 0⟩

/-- A node state with exactly one outstanding request, id 1. -/
def s4 : AppPy.NodeState :=
  { AppPy.Node.mkInit "n1" ["n1", "n2"] with
      pending_replies := [(1, pendingReplyExample)] }

theorem reply_dispatch_unreachable_witness :
    (AppPy.Body.batchBroadcastOk 1).isReply = true ∧
    AppPy.handle s4 ⟨"n2", "n1", .batchBroadcastOk 1⟩ = .ok (s4, []) :=
  ⟨rfl, reply_dispatch_unreachable s4 "n2" "n1" (.batchBroadcastOk 1) rfl⟩

/-! ## Snapshot-subtract and retry in app.py (claims C2, C3) -/

/-- The C2 scenario on `app.py`: submit `v1 = 1`; heartbeat flushes `{1}` to
peer `n2` as `BatchBroadcast(msg_id = 1)` and registers its clearing handler;
submit `v2 = 2`; then `n2`'s acknowledgment `BatchBroadcastOk(in_reply_to = 1)`
arrives. -/
def c2Events : List AppPy.Event :=
  [.msg ⟨"c", "n1", .broadcast 10 1⟩,
   .tick 0,
   .msg ⟨"c", "n1", .broadcast 11 2⟩,
   .msg ⟨"n2", "n1", .batchBroadcastOk 1⟩]

/-- `pending_broadcasts["n2"]` after the C2 scenario. -/
def c2Final : Finset ℤ :=
  match AppPy.runEvents (AppPy.Node.mkInit "n1" ["n1", "n2"]) c2Events with
  | .ok s => s.pending_broadcasts "n2"
  | .error _ => ∅

/-- C2 (evaluation of the code at the failing input): after the snapshotted
flush of `{1}` is acknowledged, `app.py` leaves the peer's pending set at
`{1, 2}` — the snapshotted value 1 has *not* been removed (the acknowledgment
falls through `handle`'s dead `InReplyTo` arm), contrary to the claim that only
`v2 = 2` remains pending. -/
theorem ack_does_not_remove_snapshot : c2Final = {1, 2} ∧ (1 : ℤ) ∈ c2Final := by
  decide

/-- State of the `app.py` node after submitting value 7: peer `n2` has `{7}`
pending. -/
def s3 : AppPy.NodeState :=
  (AppPy.handle_request (AppPy.Node.mkInit "n1" ["n1", "n2"])
    ⟨"c", "n1", .broadcast 10 7⟩).1

/-- First heartbeat flush from `s3`. -/
def hb1 : AppPy.NodeState × List AppPy.Message := AppPy.heartbeat s3 0

/-- Second heartbeat flush (the resend of the still-pending value 7). -/
def hb2 : AppPy.NodeState × List AppPy.Message := AppPy.heartbeat hb1.1 1

/-- C3 counterexample: the resend of the still-unacknowledged value 7 does not
carry the identical request id — the first flush uses `msg_id = 1` and the
heartbeat resend uses the freshly drawn `msg_id = 2`. -/
theorem retry_fresh_id_counterexample :
    hb1.2 = [⟨"n1", "n2", .batchBroadcast 1 [7]⟩] ∧
    hb2.2 = [⟨"n1", "n2", .batchBroadcast 2 [7]⟩] ∧
    ∀ m1 ∈ hb1.2, ∀ m2 ∈ hb2.2, m1.body.msgId ≠ m2.body.msgId := by
  decide

/-- C3 amended: `app.py` has no deadline-based sweep (`sent_at` is recorded but
never read).  Instead, *every* heartbeat resends a peer's entire live pending
set as a `BatchBroadcast` bearing a freshly drawn `msg_id` (not the original
id), registering an additional reply handler each time; the heartbeat leaves
`pending_broadcasts` (and `known_messages`) unchanged, processing any reply
also leaves the whole state unchanged (reply dispatch never matches), and so
the next heartbeat resends the same value set again under the next fresh id —
indefinitely, regardless of replies. -/
theorem heartbeat_resends_with_fresh_id (s : AppPy.NodeState) (p : String) (t t' : ℕ)
    (hp : s.node_ids = [p]) (hne : s.pending_broadcasts p ≠ ∅) :
    (AppPy.heartbeat s t).2 =
      [⟨s.node_id, p, .batchBroadcast s.next_msg_id (setList (s.pending_broadcasts p))⟩] ∧
    (AppPy.heartbeat s t).1.pending_broadcasts = s.pending_broadcasts ∧
    (AppPy.heartbeat s t).1.known_messages = s.known_messages ∧
    (AppPy.heartbeat s t).1.next_msg_id = s.next_msg_id + 1 ∧
    (∀ (src dst : String) (b : AppPy.Body), b.isReply = true →
      AppPy.handle (AppPy.heartbeat s t).1 ⟨src, dst, b⟩ =
        .ok ((AppPy.heartbeat s t).1, [])) ∧
    (AppPy.heartbeat (AppPy.heartbeat s t).1 t').2 =
      [⟨s.node_id, p, .batchBroadcast (s.next_msg_id + 1)
          (setList (s.pending_broadcasts p))⟩] := by
  have h1 : AppPy.heartbeat s t =
      ({ s with
          next_msg_id := s.next_msg_id + 1
          pending_replies := AppPy.prInsert s.pending_replies s.next_msg_id
            ⟨⟨s.node_id, p, .batchBroadcast s.next_msg_id
                (setList (s.pending_broadcasts p))⟩, .clearSentOnAck, t⟩ },
       [⟨s.node_id, p, .batchBroadcast s.next_msg_id (setList (s.pending_broadcasts p))⟩]) := by
    simp [AppPy.heartbeat, hp, AppPy.hbStep, hne]
  refine ⟨by rw [h1], by rw [h1], by rw [h1], by rw [h1],
    fun src dst b hb => handle_reply_noop _ src dst b hb, ?_⟩
  rw [h1]
  simp [AppPy.heartbeat, hp, AppPy.hbStep, hne]

theorem heartbeat_resends_with_fresh_id_witness :
    (AppPy.heartbeat s3 0).2 = [⟨"n1", "n2", .batchBroadcast 1 [7]⟩] ∧
    AppPy.handle (AppPy.heartbeat s3 0).1 ⟨"n2", "n1", .batchBroadcastOk 1⟩ =
      .ok ((AppPy.heartbeat s3 0).1, []) ∧
    (AppPy.heartbeat (AppPy.heartbeat s3 0).1 1).2 =
      [⟨"n1", "n2", .batchBroadcast 2 [7]⟩] := by
  have h := heartbeat_resends_with_fresh_id s3 "n2" 0 1 (by decide) (by decide)
  exact ⟨h.1.trans (by decide), h.2.2.2.2.1 "n2" "n1" (.batchBroadcastOk 1) rfl,
    h.2.2.2.2.2.trans (by decide)⟩

/-! ## Pending-set clearing in app2.py (claim C5) -/

/-- The app2 state with one peer `n2` and value 7 known and pending for `n2` —
the state right after `on_broadcast` of 7 (whose `broadcast_ok` reply consumed
message id 1), before any heartbeat flush. -/
def s5 : App2.Sys :=
  { node_id := "n1", node_ids := ["n2"], next_msg_id := 2, call_futures := []
    known_messages := {7}
    pending_broadcasts := fun p => if p = "n2" then {7} else ∅ }

/-- C5 (evaluation of the code at the failing input): one flush of `{7}` to
`n2` empties the peer's pending set immediately.  The only effect is the
outbound `batch_broadcast` send — no acknowledgment has been processed, and
the future registered under id 2 is still outstanding.  In `app2.py` the value
thus leaves the pending set as an effect of the send completing, not of an
acknowledgment naming it. -/
theorem flush_unpends_without_ack :
    (App2.batch_broadcast_to_all s5).1.pending_broadcasts "n2" = ∅ ∧
    (App2.batch_broadcast_to_all s5).1.call_futures = [2] ∧
    (App2.batch_broadcast_to_all s5).2 =
      [.send ⟨"n1", "n2",
        { type := some "batch_broadcast", msg_id := some 2, messages := some [7] }⟩] := by
  decide

/-! ## Error propagation in the runtime loop (claim C8) -/

/-- A `broadcast` request whose body lacks the `message` key: its dispatched
handler raises `KeyError`. -/
def badBroadcast : App2.Message :=
  ⟨"c", "n1", { type := some "broadcast", msg_id := some 3 }⟩

/-- A well-formed `read` request. -/
def goodRead : App2.Message :=
  ⟨"c", "n1", { type := some "read", msg_id := some 4 }⟩

/-- The runtime state the C8 scenario starts from. -/
def c8Start : App2.Sys := App2.mkInit "n1" ["n1", "n2"] 1

/-- C8 counterexample: `spin_forever` has no `try`/`except` — the dispatched
handler's failure on the first message terminates the loop with the uncaught
exception and the following `read` message is never processed, while that same
`read` alone is handled fine. -/
theorem handler_error_kills_loop :
    App2.spinLoop c8Start [badBroadcast, goodRead] = .error "KeyError: message" ∧
    App2.spinLoop c8Start [goodRead] ≠ .error "KeyError: message" := by
  constructor
  · rfl
  · intro h
    exact Except.noConfusion h

/-- C8 amended: handler failures are *not* caught: an exception raised while
processing a message propagates out of `spin_forever`, terminating the loop;
the remaining messages are never processed. -/
theorem handler_error_aborts_loop (t : App2.Sys) (m : App2.Message)
    (rest : List App2.Message) (e : String) (h : App2.spinStep t m = .error e) :
    App2.spinLoop t (m :: rest) = .error e := by
  simp [App2.spinLoop, h]

theorem handler_error_aborts_loop_witness :
    App2.spinLoop c8Start [badBroadcast] = .error "KeyError: message" :=
  handler_error_aborts_loop c8Start badBroadcast [] "KeyError: message" rfl

/-! ## Reply handling and callback dispatch are independent (claim C10) -/

/-- C10: in one `spin_forever` iteration, reply handling and request handling
are not mutually exclusive: a message whose body both carries an `in_reply_to`
matching an outstanding call and has a type with a registered callback first
resolves (and removes) the outstanding future and then also runs the callback
— here the registered `broadcast` handler, which updates the node state and
emits its `broadcast_ok` reply. -/
theorem reply_and_callback_both_fire (t : App2.Sys) (src dst : String) (b : App2.Body)
    (rid mid : ℕ) (v : ℤ)
    (h1 : b.in_reply_to = some rid) (h2 : rid ∈ t.call_futures)
    (h3 : b.type = some "broadcast") (h4 : b.message = some v)
    (h5 : b.msg_id = some mid) :
    App2.spinStep t ⟨src, dst, b⟩ = .ok
      ({ t with
          call_futures := t.call_futures.erase rid
          next_msg_id := t.next_msg_id + 1
          known_messages := insert v t.known_messages
          pending_broadcasts := AppPy.pbAddAll t.pending_broadcasts t.node_ids v },
       [App2.Eff.resolve rid b,
        App2.Eff.send ⟨t.node_id, src,
          { type := some "broadcast_ok", msg_id := some t.next_msg_id,
            in_reply_to := some mid }⟩]) := by
  simp [App2.spinStep, App2.replyBlock, h1, h2, h3, h4, h5, App2.registeredCallbacks,
    App2.runCallback, App2.on_broadcast, App2.mreply]

/-- The C10 scenario state: one outstanding call future, id 5. -/
def c10Start : App2.Sys :=
  { App2.mkInit "n1" ["n1", "n2"] 6 with call_futures := [5] }

/-- The C10 message body: a reply to call 5 that is also a `broadcast` request. -/
def c10Body : App2.Body :=
  { type := some "broadcast", msg_id := some 9, in_reply_to := some 5, message := some 42 }

theorem reply_and_callback_both_fire_witness :
    App2.spinStep c10Start ⟨"n2", "n1", c10Body⟩ = .ok
      ({ c10Start with
          call_futures := c10Start.call_futures.erase 5
          next_msg_id := c10Start.next_msg_id + 1
          known_messages := insert 42 c10Start.known_messages
          pending_broadcasts :=
            AppPy.pbAddAll c10Start.pending_broadcasts c10Start.node_ids 42 },
       [App2.Eff.resolve 5 c10Body,
        App2.Eff.send ⟨c10Start.node_id, "n2",
          { type := some "broadcast_ok", msg_id := some c10Start.next_msg_id,
            in_reply_to := some 9 }⟩]) :=
  reply_and_callback_both_fire c10Start "n2" "n1" c10Body 5 9 42 rfl (by decide) rfl rfl rfl

/-! ## The pending ⊆ known invariant (claim C6) -/

/-- Every pending value is known (`app.py`). -/
def InvA (s : AppPy.NodeState) : Prop :=
  ∀ p : String, s.pending_broadcasts p ⊆ s.known_messages

/-- Every pending value is known (`app2.py`/`mstrm`). -/
def InvB (t : App2.Sys) : Prop :=
  ∀ p : String, t.pending_broadcasts p ⊆ t.known_messages

theorem hbStep_fields (now : ℕ) (acc : AppPy.NodeState × List AppPy.Message)
    (x : String) :
    (AppPy.hbStep now acc x).1.pending_broadcasts = acc.1.pending_broadcasts ∧
    (AppPy.hbStep now acc x).1.known_messages = acc.1.known_messages := by
  simp only [AppPy.hbStep]
  split
  · exact ⟨rfl, rfl⟩
  · exact ⟨rfl, rfl⟩

theorem hbFold_fields (now : ℕ) (l : List String) :
    ∀ acc : AppPy.NodeState × List AppPy.Message,
      (l.foldl (AppPy.hbStep now) acc).1.pending_broadcasts = acc.1.pending_broadcasts ∧
      (l.foldl (AppPy.hbStep now) acc).1.known_messages = acc.1.known_messages := by
  induction l with
  | nil => intro acc; exact ⟨rfl, rfl⟩
  | cons x xs ih =>
    intro acc
    rw [List.foldl_cons]
    exact ⟨(ih _).1.trans (hbStep_fields now acc x).1,
           (ih _).2.trans (hbStep_fields now acc x).2⟩

theorem handle_request_preserves_inv (s : AppPy.NodeState) (m : AppPy.Message)
    (hInv : InvA s) : InvA (AppPy.handle_request s m).1 := by
  rcases m with ⟨src, dst, b⟩
  cases b
  case broadcast mid v =>
    intro p x hx
    simp only [AppPy.handle_request, AppPy.pbAddAll] at hx ⊢
    by_cases hp : p ∈ s.node_ids
    · rw [if_pos hp] at hx
      rcases Finset.mem_insert.mp hx with h | h
      · exact Finset.mem_insert.mpr (Or.inl h)
      · exact Finset.mem_insert.mpr (Or.inr (hInv p h))
    · rw [if_neg hp] at hx
      exact Finset.mem_insert.mpr (Or.inr (hInv p hx))
  case batchBroadcast mid vs =>
    intro p x hx
    exact Finset.mem_union_left _ (hInv p hx)
  all_goals exact hInv

theorem stepA_preserves_inv (s : AppPy.NodeState) (ev : AppPy.Event)
    (r : AppPy.NodeState × List AppPy.Message) (hInv : InvA s)
    (h : AppPy.step s ev = .ok r) : InvA r.1 := by
  cases ev with
  | msg m =>
    have h' : AppPy.handle_request s m = r := by
      simpa [AppPy.step, AppPy.handle, AppPy.envelopeIsInReplyTo] using h
    rw [← h']
    exact handle_request_preserves_inv s m hInv
  | tick now =>
    have h' : AppPy.heartbeat s now = r := by simpa [AppPy.step] using h
    rw [← h']
    intro p x hx
    rw [show (AppPy.heartbeat s now).1.pending_broadcasts = s.pending_broadcasts from
      (hbFold_fields now s.node_ids (s, [])).1] at hx
    rw [show (AppPy.heartbeat s now).1.known_messages = s.known_messages from
      (hbFold_fields now s.node_ids (s, [])).2]
    exact hInv p hx

theorem replyBlock_fields (t : App2.Sys) (m : App2.Message) :
    (App2.replyBlock t m).1.known_messages = t.known_messages ∧
    (App2.replyBlock t m).1.pending_broadcasts = t.pending_broadcasts := by
  unfold App2.replyBlock
  split
  · split
    · exact ⟨rfl, rfl⟩
    · exact ⟨rfl, rfl⟩
  · exact ⟨rfl, rfl⟩

theorem mreply_fields (t : App2.Sys) (orig : App2.Message) (body : App2.Body)
    (r : App2.Sys × App2.Eff) (h : App2.mreply t orig body = .ok r) :
    r.1.known_messages = t.known_messages ∧
    r.1.pending_broadcasts = t.pending_broadcasts := by
  unfold App2.mreply at h
  split at h
  · exact Except.noConfusion h
  · injection h with h2
    subst h2
    exact ⟨rfl, rfl⟩

theorem on_broadcast_ok_inv (t : App2.Sys) (m : App2.Message)
    (r : App2.Sys × List App2.Eff) (hInv : InvB t)
    (h : App2.on_broadcast t m = .ok r) : InvB r.1 := by
  unfold App2.on_broadcast at h
  split at h
  · exact Except.noConfusion h
  · rename_i v hv
    split at h
    · rename_i s' e hm
      injection h with h2
      subst h2
      have hf := mreply_fields _ m _ (s', e) hm
      intro p x hx
      rw [hf.2] at hx
      rw [hf.1]
      simp only [AppPy.pbAddAll] at hx
      by_cases hp : p ∈ t.node_ids
      · rw [if_pos hp] at hx
        rcases Finset.mem_insert.mp hx with h | h
        · exact Finset.mem_insert.mpr (Or.inl h)
        · exact Finset.mem_insert.mpr (Or.inr (hInv p h))
      · rw [if_neg hp] at hx
        exact Finset.mem_insert.mpr (Or.inr (hInv p hx))
    · exact Except.noConfusion h

theorem on_batch_broadcast_ok_inv (t : App2.Sys) (m : App2.Message)
    (r : App2.Sys × List App2.Eff) (hInv : InvB t)
    (h : App2.on_batch_broadcast t m = .ok r) : InvB r.1 := by
  unfold App2.on_batch_broadcast at h
  split at h
  · exact Except.noConfusion h
  · split at h
    · rename_i s' e hm
      injection h with h2
      subst h2
      have hf := mreply_fields _ m _ (s', e) hm
      intro p x hx
      rw [hf.2] at hx
      rw [hf.1]
      exact Finset.mem_union_left _ (hInv p hx)
    · exact Except.noConfusion h

theorem on_read_ok_inv (t : App2.Sys) (m : App2.Message)
    (r : App2.Sys × List App2.Eff) (hInv : InvB t)
    (h : App2.on_read t m = .ok r) : InvB r.1 := by
  unfold App2.on_read at h
  split at h
  · rename_i s' e hm
    injection h with h2
    subst h2
    have hf := mreply_fields _ m _ (s', e) hm
    intro p x hx
    rw [hf.2] at hx
    rw [hf.1]
    exact hInv p hx
  · exact Except.noConfusion h

theorem runCallback_ok_inv (ty : String) (t : App2.Sys) (m : App2.Message)
    (r : App2.Sys × List App2.Eff) (hInv : InvB t)
    (h : App2.runCallback ty t m = .ok r) : InvB r.1 := by
  unfold App2.runCallback at h
  split_ifs at h
  · exact on_broadcast_ok_inv t m r hInv h
  · exact on_batch_broadcast_ok_inv t m r hInv h
  · exact on_read_ok_inv t m r hInv h
  · injection h with h2
    subst h2
    exact hInv

theorem spinStep_ok_inv (t : App2.Sys) (m : App2.Message)
    (r : App2.Sys × List App2.Eff) (hInv : InvB t)
    (h : App2.spinStep t m = .ok r) : InvB r.1 := by
  have hrb : InvB (App2.replyBlock t m).1 := by
    intro p x hx
    rw [(replyBlock_fields t m).2] at hx
    rw [(replyBlock_fields t m).1]
    exact hInv p hx
  simp only [App2.spinStep] at h
  split at h
  · exact Except.noConfusion h
  · split at h
    · split at h
      · rename_i s2 effs2 hrc
        injection h with h2
        subst h2
        exact runCallback_ok_inv _ _ _ (s2, effs2) hrb hrc
      · exact Except.noConfusion h
    · injection h with h2
      subst h2
      exact hrb

theorem batch_one_inv (t : App2.Sys) (node : String) (ms : List ℤ)
    (hInv : InvB t) : InvB (App2.batch_broadcast_one t node ms).1 := by
  unfold App2.batch_broadcast_one
  split
  · exact hInv
  · intro p x hx
    simp only [App2.mcall] at hx ⊢
    by_cases hp : p = node
    · rw [if_pos hp] at hx
      exact hInv p (Finset.mem_sdiff.mp hx).1
    · rw [if_neg hp] at hx
      exact hInv p hx

theorem batch_fold_inv (snaps : List (String × List ℤ)) :
    ∀ acc : App2.Sys × List App2.Eff, InvB acc.1 →
      InvB ((snaps.foldl App2.flushAcc acc).1) := by
  induction snaps with
  | nil => intro acc h; exact h
  | cons x xs ih =>
    intro acc h
    rw [List.foldl_cons]
    exact ih _ (batch_one_inv _ _ _ h)

theorem batch_all_inv (t : App2.Sys) (hInv : InvB t) :
    InvB (App2.batch_broadcast_to_all t).1 :=
  batch_fold_inv _ (t, []) hInv

/-- C6: for every peer `p`, every value in `pending_broadcasts[p]` is also in
`known_messages`, and this invariant is preserved by every operation: by every
`app.py` event (`Submit`/`Merge`/`Read`/`Topology` requests, reply handling,
and the heartbeat flush), by every `mstrm`/`app2.py` loop iteration (reply
correlation plus the registered `broadcast`/`batch_broadcast`/`read`
callbacks), and by `app2.py`'s `batch_broadcast_to_all` flush. -/
theorem pending_subset_known_invariant :
    (∀ (s : AppPy.NodeState) (ev : AppPy.Event)
        (r : AppPy.NodeState × List AppPy.Message),
      InvA s → AppPy.step s ev = .ok r → InvA r.1) ∧
    (∀ (t : App2.Sys) (m : App2.Message) (r : App2.Sys × List App2.Eff),
      InvB t → App2.spinStep t m = .ok r → InvB r.1) ∧
    (∀ t : App2.Sys, InvB t → InvB (App2.batch_broadcast_to_all t).1) :=
  ⟨stepA_preserves_inv, spinStep_ok_inv, batch_all_inv⟩

theorem pending_subset_known_invariant_witness :
    InvA (AppPy.handle_request (AppPy.Node.mkInit "n1" ["n1", "n2"])
      ⟨"c", "n1", .broadcast 5 42⟩).1 :=
  pending_subset_known_invariant.1 (AppPy.Node.mkInit "n1" ["n1", "n2"])
    (.msg ⟨"c", "n1", .broadcast 5 42⟩)
    (AppPy.handle_request (AppPy.Node.mkInit "n1" ["n1", "n2"])
      ⟨"c", "n1", .broadcast 5 42⟩)
    (by intro p x hx; simp [AppPy.Node.mkInit] at hx)
    rfl

end DistSys
